import Mathlib

/-!
Verification development for the receipt digitizer (rule-based pipeline in
`app.py`, LLM-assisted pipeline in `Milestone 2/main.py`).

Money is modelled exactly.  Every amount the extraction regexes can capture
has exactly two fraction digits, so extracted amounts are integer cents
(`ℤ`); the Python source holds them as binary floating point, a representation
difference that cannot affect which match is selected, equality of stored
values, or any concrete input considered here.  The validation layer
(`validate_receipt`, the reconciliation block), whose inputs are arbitrary
stored numbers, is modelled over exact rationals (`ℚ`).  OCR text is modelled
as `String`; Python's `\s` is modelled for ASCII input.  The current date,
which Python obtains from `datetime.now()`, is passed explicitly as the
`today` argument.
-/

/-- Python's `\s` character class restricted to ASCII: space, tab, newline,
carriage return, vertical tab, form feed. -/
def isPySpace (c : Char) : Bool :=
  c = ' ' || c = '\t' || c = '\n' || c = '\r' || c = '\x0b' || c = '\x0c'

/-- Python `str.strip()` on a character list: drop leading and trailing
whitespace. -/
def pyStripList (cs : List Char) : List Char :=
  ((cs.dropWhile isPySpace).reverse.dropWhile isPySpace).reverse

/-- Python `str.strip()` on a `String`. -/
def pyStripStr (s : String) : String :=
  String.mk (pyStripList s.toList)

/-- Decimal digits to a natural number (`int(...)` on an all-digit string). -/
def digitsToNat (cs : List Char) : Nat :=
  cs.foldl (fun a c => a * 10 + (c.toNat - 48)) 0

/-- Value, in cents, of a matched amount group after Python
`float(g.replace(',', ''))`.  Groups produced by the regexes below always
have the shape `[\d,]+\.\d\d` (digits and thousands-separator commas, a dot,
exactly two fraction digits), so removing the commas leaves a decimal literal
with two fraction digits, an exact integer number of cents. -/
def amountVal (s : String) : ℤ :=
  let cs := s.toList.filter (fun c => c ≠ ',')
  let ip := cs.takeWhile Char.isDigit
  match cs.dropWhile Char.isDigit with
  | '.' :: d1 :: d2 :: _ => (digitsToNat ip : ℤ) * 100 + (digitsToNat [d1, d2] : ℤ)
  | _ => (digitsToNat ip : ℤ) * 100

/-- A line item as built by `parse_line_items_data` in `app.py`;
`price` is in cents. -/
structure LineItem where
  name : String
  qty : Nat
  price : ℤ
deriving DecidableEq

/-- Python `text.split('\n')` on a character list: split at every newline,
keeping empty pieces, so that the empty text yields one empty piece. -/
def splitNLList : List Char → List (List Char)
  | [] => [[]]
  | c :: rest =>
      if c = '\n' then [] :: splitNLList rest
      else
        match splitNLList rest with
        | l :: ls => (c :: l) :: ls
        | [] => [[c]]

/-- Python `text.split('\n')` on a `String`. -/
def splitNL (s : String) : List String :=
  (splitNLList s.toList).map String.mk

/-- Python's substring test `needle in hay` on character lists. -/
def containsSub (needle : List Char) : List Char → Bool
  | [] => needle.isEmpty
  | c :: t => needle.isPrefixOf (c :: t) || containsSub needle t

/-- The summary/payment words excluded by `parse_line_items_data`
(`app.py` line 162). -/
def excludedWords : List String :=
  ["total", "amount", "due", "visa", "mastercard", "cash", "change", "tax"]

/-- The tail of the per-line price regex `[\s$]([\d,]+\.\d{2})\s*$` after its
leading `[\s$]` character: a non-empty run of digits/commas, a dot, two
digits, then only whitespace to the end of the line.  Returns the captured
group. -/
def matchAmountToEnd (cs : List Char) : Option String :=
  let run := cs.takeWhile (fun c => c.isDigit || c = ',')
  if run.isEmpty then none
  else
    match cs.dropWhile (fun c => c.isDigit || c = ',') with
    | '.' :: d1 :: d2 :: tail =>
        if d1.isDigit && d2.isDigit && tail.all isPySpace then
          some (String.mk (run ++ '.' :: d1 :: d2 :: []))
        else none
    | _ => none

/-- `re.search` of `[\s$]([\d,]+\.\d{2})\s*$` over a line: leftmost position
whose character is whitespace or `$` and is followed by a to-end amount.
Returns the match start index and the captured price group. -/
def priceSearchAux : Nat → List Char → Option (Nat × String)
  | _, [] => none
  | i, c :: rest =>
      if isPySpace c || c = '$' then
        match matchAmountToEnd rest with
        | some g => some (i, g)
        | none => priceSearchAux (i + 1) rest
      else priceSearchAux (i + 1) rest

/-- Leftmost match of the price-suffix pattern on a (stripped) line. -/
def priceSearch (cs : List Char) : Option (Nat × String) :=
  priceSearchAux 0 cs

/-- `re.match` of the quantity pattern `^(\d+)\s*[xX]\s*`: a leading run of
digits, optional whitespace, `x` or `X`, optional whitespace.  Returns the
parsed quantity and the rest of the line after the matched prefix. -/
def leadQty (cs : List Char) : Option (Nat × List Char) :=
  let ds := cs.takeWhile Char.isDigit
  if ds.isEmpty then none
  else
    match (cs.dropWhile Char.isDigit).dropWhile isPySpace with
    | c :: rest =>
        if c = 'x' || c = 'X' then some (digitsToNat ds, rest.dropWhile isPySpace)
        else none
    | [] => none

/-- The tail of the per-line loop of `parse_line_items_data` (`app.py`
160-175) once the price suffix has matched: `name_part` is the stripped text
before the match and `g` the captured price group.  Drop the line when the
lower-cased name candidate contains a summary/payment word, parse an
optional quantity lead, and emit the item when the remaining name is
non-empty. -/
def emitItem (name_part : List Char) (g : String) : Option LineItem :=
  if excludedWords.any (fun w => containsSub w.toList (name_part.map Char.toLower)) then
    none
  else
    let qn : Nat × List Char :=
      match leadQty name_part with
      | some (q, rest) => (q, pyStripList rest)
      | none => (1, name_part)
    if qn.2.isEmpty then none
    else some ⟨String.mk qn.2, qn.1, amountVal g⟩

/-- Body of the per-line loop of `parse_line_items_data` (`app.py` 152-177):
strip the line, search for the price suffix, and hand the name candidate
and the captured price group to `emitItem`. -/
def process_line (rawline : String) : Option LineItem :=
  let line := pyStripList rawline.toList
  match priceSearch line with
  | none => none
  | some (i, g) => emitItem (pyStripList (line.take i)) g

/-- `parse_line_items_data` (`app.py` 147-178): one pass over the lines of the
raw text, collecting the items the per-line loop emits, in line order. -/
def parse_line_items_data (text : String) : List LineItem :=
  (splitNL text).filterMap process_line


/-- Case-insensitive literal match (`(?i)` on an ASCII keyword given in lower
case): returns the rest of the text after the keyword. -/
def matchCI : List Char → List Char → Option (List Char)
  | [], cs => some cs
  | _ :: _, [] => none
  | k :: ks, c :: cs => if c.toLower = k then matchCI ks cs else none

/-- After a matched keyword: `[\s:$]*([\d,]+\.\d{2})`, greedy skip of
whitespace, colons and dollar signs, then a non-empty run of digits/commas,
a dot and exactly two digits.  Returns the captured group and the rest of
the text after the match. -/
def afterKeywordAmount (cs : List Char) : Option (String × List Char) :=
  let cs1 := cs.dropWhile (fun c => isPySpace c || c = ':' || c = '$')
  let run := cs1.takeWhile (fun c => c.isDigit || c = ',')
  if run.isEmpty then none
  else
    match cs1.dropWhile (fun c => c.isDigit || c = ',') with
    | '.' :: d1 :: d2 :: rest =>
        if d1.isDigit && d2.isDigit then
          some (String.mk (run ++ '.' :: d1 :: d2 :: []), rest)
        else none
    | _ => none

/-- One attempt of `(?i)(?:Total|Amount|Due|Balance|Grand Total)[\s:$]*([\d,]+\.\d{2})`
at the current position; the alternatives start with pairwise distinct
letters, so at most one of them can begin a match here. -/
def tryTotalAt (cs : List Char) : Option (String × List Char) :=
  ((matchCI "total".toList cs).bind afterKeywordAmount) <|>
  ((matchCI "amount".toList cs).bind afterKeywordAmount) <|>
  ((matchCI "due".toList cs).bind afterKeywordAmount) <|>
  ((matchCI "balance".toList cs).bind afterKeywordAmount) <|>
  ((matchCI "grand total".toList cs).bind afterKeywordAmount)

/-- The `Sales\s*Tax` alternative: `Sales`, optional whitespace, `Tax`. -/
def matchSalesTax (cs : List Char) : Option (List Char) :=
  (matchCI "sales".toList cs).bind fun r => matchCI "tax".toList (r.dropWhile isPySpace)

/-- One attempt of `(?i)(?:Tax|VAT|GST|Sales\s*Tax)[\s:$]*([\d,]+\.\d{2})`
at the current position. -/
def tryTaxAt (cs : List Char) : Option (String × List Char) :=
  ((matchCI "tax".toList cs).bind afterKeywordAmount) <|>
  ((matchCI "vat".toList cs).bind afterKeywordAmount) <|>
  ((matchCI "gst".toList cs).bind afterKeywordAmount) <|>
  ((matchSalesTax cs).bind afterKeywordAmount)

/-- `re.findall` scan: attempt a match at each position, left to right; on
success emit the captured group and continue after the match, on failure
advance one character.  Every successful attempt consumes at least the
keyword, so `fuel` = remaining length never runs out. -/
def scanAmountsAux (tryAt : List Char → Option (String × List Char)) :
    Nat → List Char → List String
  | 0, _ => []
  | _, [] => []
  | fuel + 1, c :: rest =>
      match tryAt (c :: rest) with
      | some (g, rest2) => g :: scanAmountsAux tryAt fuel rest2
      | none => scanAmountsAux tryAt fuel rest

/-- All captured amount groups of a findall scan over the raw text. -/
def scanAmounts (tryAt : List Char → Option (String × List Char)) (text : String) :
    List String :=
  scanAmountsAux tryAt text.toList.length text.toList

/-- Exactly `n` decimal digits at the head of the text; returns the rest. -/
def matchNDigits : Nat → List Char → Option (List Char)
  | 0, cs => some cs
  | _ + 1, [] => none
  | n + 1, c :: cs => if c.isDigit then matchNDigits n cs else none

/-- A `/` or `-` date separator. -/
def isDateSep (c : Char) : Bool :=
  c = '/' || c = '-'

/-- First alternative of the date regex, `\d{1,2} sep \d{1,2} sep \d{2,4}` (sep = slash or dash),
with the greedy backtracking order of the bounded quantifiers: 2 digits
before 1, and 4 digits before 3 before 2.  Returns the count of characters
consumed. -/
def tryDateAlt1 (cs : List Char) : Option Nat :=
  ([2, 1].map fun a => ([2, 1].map fun b => ([4, 3, 2].map fun c =>
    (matchNDigits a cs).bind fun r1 =>
    match r1 with
    | s1 :: r1' =>
        if isDateSep s1 then
          (matchNDigits b r1').bind fun r2 =>
          match r2 with
          | s2 :: r2' =>
              if isDateSep s2 then
                (matchNDigits c r2').map fun _ => a + 1 + b + 1 + c
              else none
          | [] => none
        else none
    | [] => none))).flatten.flatten.foldr (fun o acc => o <|> acc) none

/-- Second alternative of the date regex, `\d{4} sep \d{1,2} sep \d{1,2}`. -/
def tryDateAlt2 (cs : List Char) : Option Nat :=
  ([2, 1].map fun b => ([2, 1].map fun c =>
    (matchNDigits 4 cs).bind fun r1 =>
    match r1 with
    | s1 :: r1' =>
        if isDateSep s1 then
          (matchNDigits b r1').bind fun r2 =>
          match r2 with
          | s2 :: r2' =>
              if isDateSep s2 then
                (matchNDigits c r2').map fun _ => 4 + 1 + b + 1 + c
              else none
          | [] => none
        else none
    | [] => none)).flatten.foldr (fun o acc => o <|> acc) none

/-- One attempt of the date regex
in `app.py` line 118 at the current
position: the first alternative is tried before the second. -/
def dateTryAt (cs : List Char) : Option Nat :=
  tryDateAlt1 cs <|> tryDateAlt2 cs

/-- `re.search` of the date regex over the whole raw text: leftmost match,
returned verbatim. -/
def dateSearchAux : List Char → Option String
  | [] => none
  | c :: rest =>
      match dateTryAt (c :: rest) with
      | some n => some (String.mk ((c :: rest).take n))
      | none => dateSearchAux rest

/-- First date-shaped substring of the raw text, if any. -/
def dateSearch (text : String) : Option String :=
  dateSearchAux text.toList

/-- The canonical fields `parse_receipt_data` (`app.py` 112-145) produces;
`total` and `tax` are in cents. -/
structure ReceiptData where
  merchant : String
  date : String
  total : ℤ
  tax : ℤ
deriving DecidableEq

/-- `parse_receipt_data` (`app.py` 112-145).  `today` stands for
`datetime.now().strftime("%Y-%m-%d")`, the value the date field falls back
to when no date-shaped substring occurs in the text. -/
def parse_receipt_data (today : String) (text : String) : ReceiptData :=
  let lines := ((splitNL text).map pyStripStr).filter (fun l => !l.isEmpty)
  let merchant := match lines with
    | [] => "Unknown"
    | l :: _ => l
  let date := match dateSearch text with
    | some d => d
    | none => today
  let total : ℤ := match scanAmounts tryTotalAt text with
    | [] => 0
    | g :: gs => amountVal ((g :: gs).getLastD "")
  let tax : ℤ := match (scanAmounts tryTaxAt text).map amountVal with
    | [] => 0
    | t :: ts => ts.foldl max t
  ⟨merchant, date, total, tax⟩


/-- Fixed-point decimal formatting of a rational, Python `f"{x:.df}"`.
(Rounding of a midpoint differs from Python's binary round-half-even in
general; no theorem below depends on the rounding of a midpoint.) -/
def fmtFix (d : Nat) (q : ℚ) : String :=
  let n : ℤ := round (q * (10 : ℚ) ^ d)
  let sign := if n < 0 then "-" else ""
  let m := n.natAbs
  let fpStr := Nat.toDigits 10 (m % 10 ^ d)
  sign ++ toString (m / 10 ^ d) ++ "." ++
    String.mk (List.replicate (d - fpStr.length) '0') ++ String.mk fpStr

/-- The canonical receipt record of the LLM-assisted pipeline
(`Milestone 2/main.py`, built from the Groq response): amounts are the
arbitrary numbers the service returned, modelled as rationals. -/
structure GroqReceipt where
  merchant : String
  date : String
  invoice_number : String
  subtotal : ℚ
  tax : ℚ
  total : ℚ

/-- The result dict of `validate_receipt`: one `(passed, message)` pair per
rule name. -/
structure ValResults where
  math : Bool × String
  dup : Bool × String
  tax_rate : Bool × String
  fields : Bool × String

/-- `validate_receipt` (`Milestone 2/main.py` 148-183). -/
def validate_receipt (data : GroqReceipt) (is_dup_bool : Bool) : ValResults :=
  let sub := data.subtotal
  let tax := data.tax
  let total := data.total
  let calc_total := sub + tax
  let math : Bool × String :=
    if |calc_total - total| ≤ 3 / 100 then
      (true, "Pass: " ++ fmtFix 2 sub ++ " + " ++ fmtFix 2 tax ++ " = " ++ fmtFix 2 total)
    else
      (false, "Fail: " ++ fmtFix 2 sub ++ " + " ++ fmtFix 2 tax ++ " != " ++ fmtFix 2 total)
  let dup : Bool × String :=
    if !is_dup_bool then (true, "No duplicate found")
    else (false, "Potential duplicate entry detected in DB.")
  let tax_rate : Bool × String :=
    if sub > 0 then
      let rate := tax / sub * 100
      if 0 ≤ rate ∧ rate ≤ 30 then (true, "Tax Rate: " ++ fmtFix 1 rate ++ "% (Normal)")
      else (false, "Suspicious Tax Rate: " ++ fmtFix 1 rate ++ "%")
    else (true, "N/A")
  let missing : List String :=
    (if data.merchant = "Unknown" then ["Merchant"] else []) ++
    (if data.date = "" then ["Date"] else []) ++
    (if data.total = 0 then ["Total"] else [])
  let fields : Bool × String :=
    if missing.isEmpty then (true, "All required fields present")
    else (false, "Missing: " ++ String.intercalate ", " missing)
  ⟨math, dup, tax_rate, fields⟩

/-- A row of the `receipts` table of the LLM-assisted pipeline
(`Milestone 2/main.py` schema; the upload timestamp plays no role in any
query modelled here). -/
structure ReceiptRow where
  merchant : String
  date : String
  invoice_number : String
  subtotal : ℚ
  tax : ℚ
  total_amount : ℚ
  filename : String

/-- The `WHERE` clause `check_if_receipt_exists` builds
(`Milestone 2/main.py` 46-51): equality on merchant, date and total, and
additionally on the invoice number exactly when the passed value is truthy
(`invoice_num = none` models Python `None`, `some ""` an empty string, both
falsy) and not the `"Unknown"` sentinel. -/
def rowMatches (merchant date : String) (total : ℚ) (invoice_num : Option String)
    (r : ReceiptRow) : Bool :=
  match invoice_num with
  | some inv =>
      if inv ≠ "" ∧ inv ≠ "Unknown" then
        decide (r.merchant = merchant ∧ r.date = date ∧ r.total_amount = total ∧
          r.invoice_number = inv)
      else
        decide (r.merchant = merchant ∧ r.date = date ∧ r.total_amount = total)
  | none => decide (r.merchant = merchant ∧ r.date = date ∧ r.total_amount = total)

/-- `check_if_receipt_exists` (`Milestone 2/main.py` 43-56): fetch the rows
matching the built `WHERE` clause and return `(len(data) > 0, len(data))`. -/
def check_if_receipt_exists (db : List ReceiptRow) (merchant date : String)
    (total : ℚ) (invoice_num : Option String) : Bool × Nat :=
  let hits := db.filter (rowMatches merchant date total invoice_num)
  (decide (0 < hits.length), hits.length)

/-- The duplicate-detector match predicate as the specification words it:
exact equality on merchant, date and total, with the invoice number
participating in the equality exactly when one is supplied and is neither
empty nor the `"Unknown"` sentinel. -/
def specMatch (merchant date : String) (total : ℚ) (invoice_num : Option String)
    (r : ReceiptRow) : Prop :=
  r.merchant = merchant ∧ r.date = date ∧ r.total_amount = total ∧
    match invoice_num with
    | some s => s ≠ "" → s ≠ "Unknown" → r.invoice_number = s
    | none => True

instance instDecidableSpecMatch (m d : String) (t : ℚ) (inv : Option String)
    (r : ReceiptRow) : Decidable (specMatch m d t inv r) := by
  unfold specMatch
  cases inv with
  | none => exact inferInstance
  | some s => exact inferInstance

/-- A row of the `receipts` table of the rule-based pipeline (`app.py`
schema); amounts in cents. -/
structure RbReceiptRow where
  merchant : String
  date : String
  total_amount : ℤ
  tax_amount : ℤ
  filename : String
deriving DecidableEq

/-- `check_if_receipt_exists` (`app.py` 39-46): exact-equality `SELECT` on
merchant, date and total; `fetchone() is not None`. -/
def check_if_receipt_exists_rb (db : List RbReceiptRow) (merchant date : String)
    (total : ℤ) : Bool :=
  db.any fun r => decide (r.merchant = merchant ∧ r.date = date ∧ r.total_amount = total)

/-- A row of the `line_items` table of the rule-based pipeline. -/
structure RbItemRow where
  receipt_id : Nat
  name : String
  qty : Nat
  price : ℤ
deriving DecidableEq

/-- The rule-based pipeline's SQLite database: both tables. -/
structure RbDB where
  receipts : List RbReceiptRow
  line_items : List RbItemRow
deriving DecidableEq

/-- `save_receipt_to_db` (`app.py` 48-61): insert the receipt row, then one
row per line item carrying the fresh receipt id. -/
def save_receipt_to_db (db : RbDB) (merchant date : String) (total tax : ℤ)
    (filename : String) (items : List LineItem) : RbDB :=
  let receipt_id := db.receipts.length + 1
  { receipts := db.receipts ++ [⟨merchant, date, total, tax, filename⟩],
    line_items := db.line_items ++ items.map fun it => ⟨receipt_id, it.name, it.qty, it.price⟩ }

/-- The persistence step of the rule-based upload handler (`app.py` 236-250):
parse the OCR text, run the duplicate check on the parsed merchant, date and
total, and only when no duplicate is reported save the receipt and its line
items. -/
def process_upload (db : RbDB) (today raw filename : String) : RbDB :=
  let receipt_data := parse_receipt_data today raw
  let line_items := parse_line_items_data raw
  if check_if_receipt_exists_rb db.receipts receipt_data.merchant receipt_data.date
      receipt_data.total then
    db
  else
    save_receipt_to_db db receipt_data.merchant receipt_data.date receipt_data.total
      receipt_data.tax filename line_items

/-- What the reconciliation block of `app.py` (`main`, 278-297) computes for
a selected stored receipt: inputs are the fetched `(Quantity, Unit Price)`
pairs and the stored official total and tax, all as the arbitrary stored
numbers (modelled as rationals, in currency units). -/
structure ReconOutcome where
  calculated_subtotal : ℚ
  calculated_grand_total : ℚ
  discrepancy : ℚ
  valid : Bool

/-- The reconciliation computation of `app.py` 278-297: per-row total price
`Quantity * Unit Price`, summed; tax added; discrepancy against the official
total; the success branch is taken iff `abs(discrepancy) < 0.1`. -/
def reconciliation (items : List (ℚ × ℚ)) (official_total official_tax : ℚ) :
    ReconOutcome :=
  let calculated_subtotal := (items.map fun it => it.1 * it.2).sum
  let calculated_grand_total := calculated_subtotal + official_tax
  let discrepancy := official_total - calculated_grand_total
  ⟨calculated_subtotal, calculated_grand_total, discrepancy, decide (|discrepancy| < 1 / 10)⟩

/-! ## Helper lemmas -/

/-- Dropping a satisfied prefix twice is the same as dropping it once. -/
theorem dropWhile_self {α : Type} (p : α → Bool) (l : List α) :
    (l.dropWhile p).dropWhile p = l.dropWhile p := by
  cases h : l.dropWhile p with
  | nil => simp
  | cons x xs =>
      have hx := List.head?_dropWhile_not p l
      rw [h] at hx
      simp only [List.head?_cons] at hx
      simp [List.dropWhile_cons, hx]

/-- `pyStripList` is idempotent: a stripped list strips to itself. -/
theorem pyStripList_idem (cs : List Char) : pyStripList (pyStripList cs) = pyStripList cs := by
  unfold pyStripList
  set a := cs.dropWhile isPySpace with ha
  set b := a.reverse.dropWhile isPySpace with hb
  have hstep : b.reverse.dropWhile isPySpace = b.reverse := by
    cases hbr : b.reverse with
    | nil => simp
    | cons x xs =>
        have hpre : b.reverse <+: a := by
          have hsuf : b <:+ a.reverse := hb ▸ List.dropWhile_suffix isPySpace
          have := List.reverse_prefix.mpr hsuf
          simpa using this
        obtain ⟨r, hr⟩ := hpre
        rw [hbr] at hr
        have hx := List.head?_dropWhile_not isPySpace cs
        rw [← ha, ← hr] at hx
        simp only [List.cons_append, List.head?_cons] at hx
        simp [List.dropWhile_cons, hx]
  rw [hstep, List.reverse_reverse, dropWhile_self]

/-- A captured amount group always has a non-negative cent value. -/
theorem amountVal_nonneg (s : String) : 0 ≤ amountVal s := by
  simp only [amountVal]
  split <;> positivity

/-- The initial value bounds a `foldl max`. -/
theorem le_foldl_max (l : List ℤ) (a : ℤ) : a ≤ l.foldl max a := by
  induction l generalizing a with
  | nil => simp
  | cons x t ih => exact le_trans (le_max_left a x) (ih (max a x))

/-- Every member bounds a `foldl max`. -/
theorem mem_le_foldl_max (l : List ℤ) (a x : ℤ) : x ∈ l → x ≤ l.foldl max a := by
  induction l generalizing a with
  | nil => intro hx; cases hx
  | cons y t ih =>
      intro hx
      rcases List.mem_cons.mp hx with h | h
      · subst h
        exact le_trans (le_max_right a x) (le_foldl_max t (max a x))
      · exact ih (max a y) h

/-- A `foldl max` is the initial value or one of the members. -/
theorem foldl_max_mem (l : List ℤ) (a : ℤ) : l.foldl max a = a ∨ l.foldl max a ∈ l := by
  induction l generalizing a with
  | nil => exact Or.inl rfl
  | cons x t ih =>
      rcases ih (max a x) with h | h
      · rcases max_choice a x with hm | hm
        · exact Or.inl (by rw [List.foldl_cons, h, hm])
        · exact Or.inr (by rw [List.foldl_cons, h, hm]; exact List.mem_cons_self x t)
      · exact Or.inr (List.mem_cons_of_mem x h)

/-! ## Claim theorems -/

/-- Claim C1: in `validate_receipt`, the `math` rule passes iff
`|subtotal + tax - total| ≤ 0.03`, the boundary being inclusive
(`subtotal = 10.00, tax = 0.80, total = 10.83` passes and `total = 10.84`
fails), and the rule's message reports the arithmetic over the three
formatted operands. -/
theorem c1_math_rule :
    (∀ (data : GroqReceipt) (is_dup : Bool),
      ((validate_receipt data is_dup).math.1 = true ↔
        |data.subtotal + data.tax - data.total| ≤ 3 / 100) ∧
      (validate_receipt data is_dup).math.2 =
        (if |data.subtotal + data.tax - data.total| ≤ 3 / 100 then
          "Pass: " ++ fmtFix 2 data.subtotal ++ " + " ++ fmtFix 2 data.tax ++ " = " ++
            fmtFix 2 data.total
        else
          "Fail: " ++ fmtFix 2 data.subtotal ++ " + " ++ fmtFix 2 data.tax ++ " != " ++
            fmtFix 2 data.total)) ∧
    (validate_receipt ⟨"M", "2024-01-01", "INV-1", 10, 4 / 5, 1083 / 100⟩ false).math.1 = true ∧
    (validate_receipt ⟨"M", "2024-01-01", "INV-1", 10, 4 / 5, 1084 / 100⟩ false).math.1 = false := by
  refine ⟨fun data is_dup => ⟨?_, ?_⟩, ?_, ?_⟩
  · by_cases h : |data.subtotal + data.tax - data.total| ≤ 3 / 100 <;>
      simp [validate_receipt, h]
  · by_cases h : |data.subtotal + data.tax - data.total| ≤ 3 / 100 <;>
      simp [validate_receipt, h]
  · have h : |(10 : ℚ) + 4 / 5 - 1083 / 100| ≤ 3 / 100 := by
      rw [show (10 : ℚ) + 4 / 5 - 1083 / 100 = -(3 / 100) by norm_num, abs_neg,
        abs_of_nonneg (by norm_num : (0 : ℚ) ≤ 3 / 100)]
    simp [validate_receipt, h]
  · have h : ¬ |(10 : ℚ) + 4 / 5 - 1084 / 100| ≤ 3 / 100 := by
      rw [show (10 : ℚ) + 4 / 5 - 1084 / 100 = -(4 / 100) by norm_num, abs_neg,
        abs_of_nonneg (by norm_num : (0 : ℚ) ≤ 4 / 100)]
      norm_num
    simp [validate_receipt, h]

/-- Claim C2: the reconciliation check computes
`calculated_subtotal = Σ qty × price` over the fetched line items,
`calculated_total = calculated_subtotal + tax`,
`discrepancy = official_total − calculated_total`, and reports valid iff
`|discrepancy| < 0.1`, the inequality being strict (a discrepancy of
exactly `0.1` is reported invalid). -/
theorem c2_reconciliation :
    (∀ (items : List (ℚ × ℚ)) (official_total official_tax : ℚ),
      (reconciliation items official_total official_tax).calculated_subtotal =
        (items.map fun it => it.1 * it.2).sum ∧
      (reconciliation items official_total official_tax).calculated_grand_total =
        (items.map fun it => it.1 * it.2).sum + official_tax ∧
      (reconciliation items official_total official_tax).discrepancy =
        official_total - ((items.map fun it => it.1 * it.2).sum + official_tax) ∧
      ((reconciliation items official_total official_tax).valid = true ↔
        |official_total - ((items.map fun it => it.1 * it.2).sum + official_tax)| < 1 / 10)) ∧
    (reconciliation [(1, 1)] (11 / 10) 0).valid = false := by
  constructor
  · intro items t tax
    refine ⟨rfl, rfl, rfl, ?_⟩
    simp [reconciliation]
  · have h : ¬ |(11 : ℚ) / 10 - (((1 : ℚ) * 1 + 0) + 0)| < 1 / 10 := by
      rw [show (11 : ℚ) / 10 - (((1 : ℚ) * 1 + 0) + 0) = 1 / 10 by norm_num,
        abs_of_nonneg (by norm_num : (0 : ℚ) ≤ 1 / 10)]
      norm_num
    simpa [reconciliation] using decide_eq_false h

/-- Claim C3: the extracted total is the value of the last match, in text
order, of a total keyword followed by a two-fraction-digit amount
(`scanAmounts tryTotalAt` is that match list), and `0.0` when there is no
match.  Concretely, keyword occurrences embedded in longer words count
(`Subtotal` contains `total`), and the last of several matches wins. -/
theorem c3_total_is_last_match :
    (∀ (today text : String),
      (scanAmounts tryTotalAt text = [] → (parse_receipt_data today text).total = 0) ∧
      (∀ (gs : List String) (g : String), scanAmounts tryTotalAt text = gs ++ [g] →
        (parse_receipt_data today text).total = amountVal g)) ∧
    scanAmounts tryTotalAt "Store\nTotal: 3.20\nSubtotal: 1.00\nTotal: 8.64" =
      ["3.20", "1.00", "8.64"] ∧
    (parse_receipt_data "2024-01-01" "Store\nTotal: 3.20\nSubtotal: 1.00\nTotal: 8.64").total
      = 864 ∧
    (parse_receipt_data "2024-01-01" "Store\nno amounts here").total = 0 := by
  refine ⟨fun today text => ⟨fun h => ?_, fun gs g h => ?_⟩, by decide, by decide, by decide⟩
  · simp only [parse_receipt_data, h]
  · simp only [parse_receipt_data, h]
    cases gs with
    | nil => simp
    | cons a as =>
        show amountVal ((a :: (as ++ [g])).getLastD "") = amountVal g
        rw [← List.cons_append, List.getLastD_concat]

/-- Claim C4: the extracted tax is the maximum parsed value among all matches
of a tax keyword followed by a two-fraction-digit amount
(`scanAmounts tryTaxAt` is that match list): it bounds every match value,
it is attained by some match when one exists, and it is `0.0` when there is
none. -/
theorem c4_tax_is_max_match :
    (∀ (today text : String),
      (scanAmounts tryTaxAt text = [] → (parse_receipt_data today text).tax = 0) ∧
      (∀ g ∈ scanAmounts tryTaxAt text,
        amountVal g ≤ (parse_receipt_data today text).tax) ∧
      (scanAmounts tryTaxAt text ≠ [] →
        ∃ g ∈ scanAmounts tryTaxAt text,
          (parse_receipt_data today text).tax = amountVal g)) ∧
    scanAmounts tryTaxAt "Shop\nVAT 1.00\nTax: 2.00\nGST 0.50" =
      ["1.00", "2.00", "0.50"] ∧
    (parse_receipt_data "2024-01-01" "Shop\nVAT 1.00\nTax: 2.00\nGST 0.50").tax = 200 := by
  refine ⟨fun today text => ⟨fun h => ?_, ?_, fun h => ?_⟩, by decide, by decide⟩
  · simp only [parse_receipt_data, List.map_eq_map, h, List.map_nil]
  · intro g hg
    simp only [parse_receipt_data]
    cases hscan : scanAmounts tryTaxAt text with
    | nil => rw [hscan] at hg; cases hg
    | cons a as =>
        rw [hscan] at hg
        simp only [List.map_cons]
        rcases List.mem_cons.mp hg with hga | hga
        · subst hga
          exact le_foldl_max (as.map amountVal) (amountVal g)
        · exact mem_le_foldl_max (as.map amountVal) (amountVal a) (amountVal g)
            (List.mem_map_of_mem amountVal hga)
  · simp only [parse_receipt_data]
    cases hscan : scanAmounts tryTaxAt text with
    | nil => exact absurd hscan h
    | cons a as =>
        simp only [List.map_cons]
        rcases foldl_max_mem (as.map amountVal) (amountVal a) with hm | hm
        · exact ⟨a, List.mem_cons_self a as, hm⟩
        · obtain ⟨g, hg, hgv⟩ := List.mem_map.mp hm
          exact ⟨g, List.mem_cons_of_mem a hg, hgv.symm⟩

/-- A string with a non-empty character list is not the empty string. -/
theorem string_ne_empty_of_data {s : String} (h : s.data ≠ []) : s ≠ "" :=
  fun hs => h (by rw [hs])

/-- The facts that hold of any item `emitItem` can emit whose name came from
a stripped source list. -/
theorem stripped_item_facts (q : Nat) (g : String) (src : List Char)
    (hne : (pyStripList src).isEmpty = false) :
    (⟨String.mk (pyStripList src), q, amountVal g⟩ : LineItem).name ≠ "" ∧
    pyStripStr (⟨String.mk (pyStripList src), q, amountVal g⟩ : LineItem).name =
      (⟨String.mk (pyStripList src), q, amountVal g⟩ : LineItem).name ∧
    0 ≤ (⟨String.mk (pyStripList src), q, amountVal g⟩ : LineItem).price := by
  refine ⟨?_, ?_, amountVal_nonneg g⟩
  · apply string_ne_empty_of_data
    intro hd
    have : pyStripList src = [] := hd
    rw [this] at hne
    simp at hne
  · show String.mk (pyStripList (pyStripList src)) = String.mk (pyStripList src)
    exact congrArg String.mk (pyStripList_idem src)

/-- Any item `emitItem` emits from a stripped name candidate has a
non-empty, already-trimmed name and a non-negative price. -/
theorem emitItem_facts (src : List Char) (g : String) (it : LineItem)
    (h : emitItem (pyStripList src) g = some it) :
    it.name ≠ "" ∧ pyStripStr it.name = it.name ∧ 0 ≤ it.price := by
  by_cases hcond : (excludedWords.any fun w =>
      containsSub w.toList ((pyStripList src).map Char.toLower)) = true
  · simp only [emitItem, hcond, if_true] at h
    exact Option.noConfusion h
  · have hcond' : (excludedWords.any fun w =>
        containsSub w.toList ((pyStripList src).map Char.toLower)) = false := by
      revert hcond
      cases excludedWords.any fun w =>
        containsSub w.toList ((pyStripList src).map Char.toLower) <;> simp
    simp only [emitItem, hcond', Bool.false_eq_true, if_false] at h
    cases hlq : leadQty (pyStripList src) with
    | none =>
        simp only [hlq] at h
        by_cases hni : (pyStripList src).isEmpty = true
        · simp only [hni, if_true] at h
          exact Option.noConfusion h
        · have hni' : (pyStripList src).isEmpty = false := by
            revert hni; cases (pyStripList src).isEmpty <;> simp
          simp only [hni', Bool.false_eq_true, if_false, Option.some_inj] at h
          rw [← h]
          exact stripped_item_facts 1 g src hni'
    | some qr =>
        obtain ⟨q, rest⟩ := qr
        simp only [hlq] at h
        by_cases hni : (pyStripList rest).isEmpty = true
        · simp only [hni, if_true] at h
          exact Option.noConfusion h
        · have hni' : (pyStripList rest).isEmpty = false := by
            revert hni; cases (pyStripList rest).isEmpty <;> simp
          simp only [hni', Bool.false_eq_true, if_false, Option.some_inj] at h
          rw [← h]
          exact stripped_item_facts q g rest hni'

/-- Claim C5: whenever the price-suffix pattern matches on a line and the
lower-cased text before the matched price contains one of the excluded
summary/payment words as a substring, the line-item extractor emits nothing
for that line; in particular the line `VISA ****1234   45.00` produces no
line item. -/
theorem c5_excluded_line_no_item :
    (∀ (line : String) (i : Nat) (g : String),
      priceSearch (pyStripList line.toList) = some (i, g) →
      excludedWords.any (fun w =>
        containsSub w.toList
          ((pyStripList ((pyStripList line.toList).take i)).map Char.toLower)) = true →
      process_line line = none) ∧
    process_line "VISA ****1234   45.00" = none ∧
    parse_line_items_data "VISA ****1234   45.00" = [] := by
  refine ⟨fun line i g h1 h2 => ?_, by decide, by decide⟩
  simp only [process_line, h1, emitItem, h2, if_true]

/-- Claim C6, counterexample: on the line `0 x Burger 5.00` the extractor
emits a line item whose qty is the parsed `0`, which is not positive, so not
every emitted item has a positive qty. -/
theorem c6_qty_zero_cex :
    ¬ (∀ it ∈ parse_line_items_data "0 x Burger 5.00", 0 < it.qty) := by decide

/-- Claim C6 as amended: every emitted line item has a non-empty name that
is already trimmed and a non-negative price; the qty is the integer parsed
from an `N x ` quantity lead when one is present — which may be `0`, as on
the line `0 x Burger 5.00` — and defaults to `1` when no lead is present. -/
theorem c6_line_item_invariants :
    (∀ (line : String) (it : LineItem), process_line line = some it →
      it.name ≠ "" ∧ pyStripStr it.name = it.name ∧ 0 ≤ it.price) ∧
    (∀ (text : String), ∀ it ∈ parse_line_items_data text,
      it.name ≠ "" ∧ pyStripStr it.name = it.name ∧ 0 ≤ it.price) ∧
    process_line "2 x Burger        9.50" = some ⟨"Burger", 2, 950⟩ ∧
    process_line "Milk  2.50" = some ⟨"Milk", 1, 250⟩ ∧
    process_line "0 x Burger 5.00" = some ⟨"Burger", 0, 500⟩ := by
  have part1 : ∀ (line : String) (it : LineItem), process_line line = some it →
      it.name ≠ "" ∧ pyStripStr it.name = it.name ∧ 0 ≤ it.price := by
    intro line it h
    simp only [process_line] at h
    cases hps : priceSearch (pyStripList line.toList) with
    | none => rw [hps] at h; exact Option.noConfusion h
    | some pr =>
        obtain ⟨i, g⟩ := pr
        rw [hps] at h
        exact emitItem_facts ((pyStripList line.toList).take i) g it h
  refine ⟨part1, ?_, by decide, by decide, by decide⟩
  intro text it hit
  obtain ⟨line, _, hline⟩ := List.mem_filterMap.mp hit
  exact part1 line it hline

/-- The `WHERE` clause the code builds decides exactly the predicate the
specification words. -/
theorem rowMatches_eq_specMatch (m d : String) (t : ℚ) (inv : Option String) :
    rowMatches m d t inv = fun r => decide (specMatch m d t inv r) := by
  funext r
  cases inv with
  | none =>
      simp only [rowMatches]
      apply decide_eq_decide.mpr
      simp [specMatch]
  | some s =>
      by_cases hs : s ≠ "" ∧ s ≠ "Unknown"
      · simp only [rowMatches, if_pos hs]
        apply decide_eq_decide.mpr
        constructor
        · rintro ⟨h1, h2, h3, h4⟩
          exact ⟨h1, h2, h3, fun _ _ => h4⟩
        · rintro ⟨h1, h2, h3, h4⟩
          exact ⟨h1, h2, h3, h4 hs.1 hs.2⟩
      · simp only [rowMatches, if_neg hs]
        apply decide_eq_decide.mpr
        constructor
        · rintro ⟨h1, h2, h3⟩
          exact ⟨h1, h2, h3, fun hne hnu => absurd ⟨hne, hnu⟩ hs⟩
        · rintro ⟨h1, h2, h3, _⟩
          exact ⟨h1, h2, h3⟩

/-- Claim C7: the duplicate detector matches stored records by exact
equality on the supplied fields, the invoice number participating exactly
when it is supplied and not the `"Unknown"` sentinel; the LLM-variant
returns the match count together with whether at least one match exists,
and the rule-based variant returns whether at least one record matches
exactly on merchant, date and total. -/
theorem c7_duplicate_contract :
    (∀ (db : List ReceiptRow) (m d : String) (t : ℚ) (inv : Option String),
      (check_if_receipt_exists db m d t inv).2 =
        (db.filter fun r => decide (specMatch m d t inv r)).length ∧
      ((check_if_receipt_exists db m d t inv).1 = true ↔
        ∃ r ∈ db, specMatch m d t inv r)) ∧
    (∀ (db : List RbReceiptRow) (m d : String) (t : ℤ),
      check_if_receipt_exists_rb db m d t = true ↔
        ∃ r ∈ db, r.merchant = m ∧ r.date = d ∧ r.total_amount = t) := by
  constructor
  · intro db m d t inv
    constructor
    · simp only [check_if_receipt_exists]
      rw [rowMatches_eq_specMatch]
    · simp only [check_if_receipt_exists]
      rw [rowMatches_eq_specMatch, decide_eq_true_eq]
      constructor
      · intro h
        obtain ⟨r, hr⟩ := List.length_pos_iff_exists_mem.mp h
        obtain ⟨hrdb, hrp⟩ := List.mem_filter.mp hr
        exact ⟨r, hrdb, of_decide_eq_true hrp⟩
      · rintro ⟨r, hrdb, hrp⟩
        exact List.length_pos_iff_exists_mem.mpr
          ⟨r, List.mem_filter.mpr ⟨hrdb, decide_eq_true hrp⟩⟩
  · intro db m d t
    simp [check_if_receipt_exists_rb]

/-- Claim C9: the pair the LLM-variant duplicate check returns is internally
consistent: the boolean is true exactly when the returned count is
positive. -/
theorem c9_exists_iff_count_pos :
    ∀ (db : List ReceiptRow) (m d : String) (t : ℚ) (inv : Option String),
      (check_if_receipt_exists db m d t inv).1 = true ↔
        0 < (check_if_receipt_exists db m d t inv).2 := by
  intro db m d t inv
  simp [check_if_receipt_exists]

/-- Claim C8, counterexample: on a text with no date-shaped substring the
extracted record depends on the current date — two runs of
`parse_receipt_data` on the identical text at different current dates
differ (in the `date` field), so the extractor is not independent of the
clock. -/
theorem c8_clock_dependence_cex :
    parse_receipt_data "2024-01-01" "Shop\nTotal: 5.00" ≠
      parse_receipt_data "2024-01-02" "Shop\nTotal: 5.00" := by decide

/-- Claim C8 as amended: on identical raw text the extracted merchant, total
and tax never depend on the current date, and whenever the text contains a
date-shaped substring the whole extracted record is identical across runs;
only the `date` fallback consults the clock.  (The line-item extractor takes
no clock input at all.) -/
theorem c8_extractors_pure_given_date :
    ∀ (today1 today2 text : String),
      (parse_receipt_data today1 text).merchant = (parse_receipt_data today2 text).merchant ∧
      (parse_receipt_data today1 text).total = (parse_receipt_data today2 text).total ∧
      (parse_receipt_data today1 text).tax = (parse_receipt_data today2 text).tax ∧
      ((dateSearch text).isSome →
        parse_receipt_data today1 text = parse_receipt_data today2 text) := by
  intro today1 today2 text
  refine ⟨rfl, rfl, rfl, fun h => ?_⟩
  obtain ⟨d, hd⟩ := Option.isSome_iff_exists.mp h
  simp only [parse_receipt_data, hd]

/-- Claim C10: when the rule-based pipeline's duplicate check reports an
existing match for the parsed merchant, date and total, the upload is not
persisted: neither the receipts table nor the line_items table changes.
The concrete instance replays a duplicate upload against a one-receipt
store. -/
theorem c10_duplicate_not_persisted :
    (∀ (db : RbDB) (today raw filename : String),
      check_if_receipt_exists_rb db.receipts (parse_receipt_data today raw).merchant
        (parse_receipt_data today raw).date (parse_receipt_data today raw).total = true →
      (process_upload db today raw filename).receipts = db.receipts ∧
      (process_upload db today raw filename).line_items = db.line_items) ∧
    process_upload
      ⟨[⟨"Acme Mart", "01/15/2024", 864, 64, "a.png"⟩], []⟩
      "2024-01-01" "Acme Mart\n01/15/2024\nTotal: 8.64" "b.png" =
      ⟨[⟨"Acme Mart", "01/15/2024", 864, 64, "a.png"⟩], []⟩ := by
  constructor
  · intro db today raw filename h
    simp [process_upload, h]
  · decide
